import Mathlib

/-!
# Verification of the KV-cache sparsification attention module

Shallow embedding of `modify_models/modify_llama_baselines.py`
(`LlamaAttentionExperimental`), the family of token-eviction policies for
transformer decoder attention (dense, oracle family, streamingLLM,
oracle_grouped, snapkv / snapkv_prefill_wrong, h2o_true, quest).

Modelling conventions:

* Machine floats become exact rationals `ℚ`.  Python's `int(x)` (truncation
  toward zero) is modelled exactly by `pyInt`.
* Additive attention-mask entries take only the two values `0.0` and `-inf`
  in the source; logits live in `WithBot ℚ`, whose bottom element `⊥` stands
  for `-inf` (addition on `WithBot ℚ` absorbs `⊥`, matching IEEE addition of
  `-inf` with finite values).
* The batch and head dimensions of every tensor loop are embarrassingly
  parallel in the source (each `bsz*num_heads` row evolves independently, and
  `kv_cache_budget` / `step_budget` are constant across rows), so the
  embedding models a single (batch × head) row; per-row score and importance
  matrices are passed as functions `ℕ → ℕ → ℚ`.
* Softmax / exp based importance signals are not rational-computable; they
  enter the algorithms only as opaque per-step importance values, so they are
  taken as parameters (the theorems quantify over them universally).
-/

/-- Python `int(x)`: truncation toward zero. -/
def pyInt (q : ℚ) : ℤ := if 0 ≤ q then ⌊q⌋ else ⌈q⌉

/-- The per-step eviction budget used by the `snapkv` prefill loop
(`step_budget = max(int((i + 1) * self.sparse_aggression), min_sparse_index)`)
and by the `h2o_true` prefill loop
(`kv_cache_budget = max(min_sparse_index, int((i + 1) * self.sparse_aggression))`).
`a` is the source's `sparse_aggression` (the *retained* fraction) and
`msi` is `min_sparse_index`. -/
def stepBudget (a : ℚ) (msi i : ℕ) : ℕ :=
  max (pyInt (((i : ℚ) + 1) * a)).toNat msi

/-- The budget as the claim states it: `round` in place of the source's
`int` truncation. -/
def claimStepBudget (a : ℚ) (msi i : ℕ) : ℕ :=
  max (round (((i : ℚ) + 1) * a)).toNat msi

/-- The per-(batch × head)-row incremental eviction state of the
SnapKV / H2O algorithms: `tokens` models the `active_tokens` buffer
(`torch.full(..., 0)` initialised, so unwritten slots read `0`), and
`count` models `active_counts`. -/
structure EvictState where
  tokens : ℕ → ℕ
  count : ℕ

/-- Initial state: `active_tokens` all-zero, `active_counts = 1`
(token 0 is active from the start; `final_mask_2d[:, 0, 0] = 0.0`). -/
def initEvictState : EvictState := ⟨fun _ => 0, 1⟩

/-- First index in `[0, n)` minimising `f`, mirroring
`torch.min(row_imps, dim=1)` (which reports the first minimal entry of the
gathered importance row). -/
def argminIdxFn (f : ℕ → ℚ) : ℕ → ℕ
  | 0 => 0
  | 1 => 0
  | n + 2 =>
    let j := argminIdxFn f (n + 1)
    if f (n + 1) < f j then n + 1 else j

/-- One step of the shared incremental eviction loop (`snapkv` prefill,
lines 483–503, and `h2o_true` prefill, lines 609–625 — the two loop bodies
are textually identical up to the importance signal `imp`):

* `can_add` (`active_counts < step_budget`): append token `i` at slot
  `count` and increment the count;
* otherwise gather the importances of `active_tokens[:budget]`, find the
  minimum, and replace it by token `i` exactly when
  `new_imps > min_vals` (strict); else discard token `i`.

`torch.min` over an empty slice (budget 0) raises at runtime; that branch is
modelled as the identity and is unreachable whenever `min_sparse_index ≥ 1`. -/
def evictStep (imp : ℕ → ℚ) (budget i : ℕ) (st : EvictState) : EvictState :=
  if st.count < budget then
    { tokens := Function.update st.tokens st.count i, count := st.count + 1 }
  else if budget = 0 then st
  else if imp (st.tokens (argminIdxFn (fun p => imp (st.tokens p)) budget))
      < imp i then
    { tokens := Function.update st.tokens
        (argminIdxFn (fun p => imp (st.tokens p)) budget) i,
      count := st.count }
  else st

/-- The prefill eviction loop `for i in range(1, q_len)`: state after
processing query positions `1 .. n`.  `imp i t` is the importance the policy
assigns to token `t` while processing position `i` (for `snapkv` the pooled
observation-window attention mass `aggregator_pooled[:, t]`; for `h2o_true`
the raw score row `attn_weights_2d[:, i, t]`). -/
def evictLoop (imp : ℕ → ℕ → ℚ) (a : ℚ) (msi : ℕ) : ℕ → EvictState
  | 0 => initEvictState
  | n + 1 => evictStep (imp (n + 1)) (stepBudget a msi (n + 1)) (n + 1)
      (evictLoop imp a msi n)

/-- Row `row` of the prefill selection mask (shared by `snapkv` and
`h2o_true`): `-inf` everywhere, `0.0` at `active_tokens[p]` for
`p < active_counts` (the source writes `arange(max_budget) < active_counts`,
hence the `min` with `max_budget = max(int(q_len * a), min_sparse_index)`),
and finally `0.0` on the always-kept prefix `[0, min_sparse_index)`
(`final_mask[:, :, :, :min_sparse_index] = 0.0`, applied after the loop to
every row). -/
def prefillMaskRow (imp : ℕ → ℕ → ℚ) (a : ℚ) (msi qLen row : ℕ) :
    ℕ → WithBot ℚ :=
  let st := evictLoop imp a msi row
  let maxBudget := max (pyInt ((qLen : ℚ) * a)).toNat msi
  fun k =>
    if k < msi then ((0 : ℚ) : WithBot ℚ)
    else if (List.range (min st.count maxBudget)).any
        (fun p => st.tokens p = k) then ((0 : ℚ) : WithBot ℚ)
    else ⊥

/-- The row persisted by the `snapkv` prefill branch:
`self.snapkv_cache = final_mask[:, :, -1, :]` (taken after the prefix
force-zeroing). -/
def snapkvLastRow (imp : ℕ → ℕ → ℚ) (a : ℚ) (msi qLen : ℕ) : ℕ → WithBot ℚ :=
  prefillMaskRow imp a msi qLen (qLen - 1)

/-- The `snapkv` single-token decode branch (lines 418–424): the persisted
mask row is copied into the front `original_kv_len` entries of the extended
mask and every later position is set to `0.0`; no eviction logic runs. -/
def snapkvDecodeExtend (cache : ℕ → WithBot ℚ) (origLen : ℕ) :
    ℕ → WithBot ℚ :=
  fun k => if k < origLen then cache k else ((0 : ℚ) : WithBot ℚ)

/-- The `snapkv_prefill_wrong` decode branch (lines 362–378):
`limit = min(new_kv_len, cached_len)`, entries below `limit` come from the
cached mask, entries at or beyond `limit` are set to `0.0`. -/
def wrongDecodeExtend (cache : ℕ → WithBot ℚ) (cachedLen kvLen : ℕ) :
    ℕ → WithBot ℚ :=
  fun k => if k < min kvLen cachedLen then cache k else ((0 : ℚ) : WithBot ℚ)

/-- The `h2o_true` single-token decode step (lines 539–589).  `rowW` is the
raw score row of the single query (`row_weights`), `kvLen` the combined
sequence length `kv_seq_len`, `prev` the cache-persisted
`(active_tokens, active_counts)`.  Both `max_budget` (line 542) and
`kv_cache_budget` (lines 554–556) evaluate
`max(min_sparse_index, int(kv_seq_len * sparse_aggression))`, which is
`stepBudget a msi (kvLen - 1)`.

Faithful quirks of the source, kept as-is:
* the add branch writes the new token id at slot `count - 1`
  (`prev_active_tokens[add_indices, prev_active_counts[add_indices] - 1]`),
  overwriting the last active token, before incrementing the count;
* the zero-padding of `prev_active_tokens` (lines 544–547) is a no-op in the
  functional model, whose unwritten slots already read `0`;
* the decode mask is built solely from the active slots — there is **no**
  prefix force-zeroing in this branch. -/
def h2oDecodeStep (rowW : ℕ → ℚ) (a : ℚ) (msi kvLen : ℕ) (prev : EvictState) :
    (ℕ → WithBot ℚ) × EvictState :=
  let budget := max (pyInt ((kvLen : ℚ) * a)).toNat msi
  let newId := kvLen - 1
  let st :=
    if prev.count < budget then
      { tokens := Function.update prev.tokens (prev.count - 1) newId,
        count := prev.count + 1 }
    else if budget = 0 then prev
    else
      let j := argminIdxFn (fun p => rowW (prev.tokens p)) budget
      if rowW (prev.tokens j) < rowW newId then
        { tokens := Function.update prev.tokens j newId, count := prev.count }
      else prev
  let mask : ℕ → WithBot ℚ := fun k =>
    if (List.range (min st.count budget)).any (fun p => st.tokens p = k) then
      ((0 : ℚ) : WithBot ℚ)
    else ⊥
  (mask, st)

/-- Causal Mask Builder (lines 249–255): when the caller supplies no
attention mask, the source builds
`torch.ones((bsz, 1, q_len, kv_seq_len)).triu(diagonal=1)` and fills the
`True` entries with `-inf`, the rest with `0`.  `triu(diagonal=1)` keeps the
entries with `j ≥ i + 1`, aligned at the *top-left* of the `(q_len,
kv_seq_len)` block.  The entries are constant across the batch dimension;
`qLen` and `kvLen` record the tensor shape. -/
def buildCausalMask (qLen kvLen i j : ℕ) : WithBot ℚ :=
  if i + 1 ≤ j then ⊥ else ((0 : ℚ) : WithBot ℚ)

/-- The causal mask as the claim describes it: query row `i` stands for
absolute key position `(K − Q) + i` (the `Q` query rows are the last `Q` of
the `K` key positions), and the strictly-upper part relative to that
alignment is `-inf`. -/
def specCausalMask (qLen kvLen i j : ℕ) : WithBot ℚ :=
  if (kvLen - qLen) + i + 1 ≤ j then ⊥ else ((0 : ℚ) : WithBot ℚ)

/-- Modelled from the spec: `sorted_index_to_mask` is imported from `utils`,
which is not among the provided sources.  Spec §4.3: "sort keys by
importance descending, take the top `N = max(round(Q_or_K × (1−aggression)),
min_sparse_index)`, always force the indices `[0, min_sparse_index)` into
the kept set, build an additive mask that is 0 at kept positions and
-infinity elsewhere, restricted to causally valid (non-future) positions."
`sortedIdx q r` is the key ranked `r`-th by descending importance for query
row `q` (the softmax-based importance computations are not
rational-computable, so the ranking is a parameter); `a` is the retained
fraction `1 − aggression` (the source's `sparse_aggression`). -/
def sortedIndexToMask (sortedIdx : ℕ → ℕ → ℕ) (msi qLen kvLen : ℕ) (a : ℚ)
    (q k : ℕ) : WithBot ℚ :=
  if (kvLen - qLen) + q + 1 ≤ k then ⊥
  else if k < msi then ((0 : ℚ) : WithBot ℚ)
  else if (List.range (max (round ((kvLen : ℚ) * a)).toNat msi)).any
      (fun r => sortedIdx q r = k) then ((0 : ℚ) : WithBot ℚ)
  else ⊥

/-- Accumulate decimal digits, failing on a non-digit (as `float()` does). -/
def parseDigitsAux : List Char → ℕ → Option ℕ
  | [], acc => some acc
  | c :: cs, acc =>
    if c.isDigit then parseDigitsAux cs (acc * 10 + (c.toNat - 48)) else none

/-- Parse a nonempty all-digit string. -/
def parseNatDigits : List Char → Option ℕ
  | [] => none
  | cs => parseDigitsAux cs 0

/-- Split a character list at every occurrence of a separator character
(Python `str.split` with a one-character separator). -/
def splitOnCharAux (sep : Char) : List Char → List Char → List (List Char)
  | [], acc => [acc.reverse]
  | c :: cs, acc =>
    if c = sep then acc.reverse :: splitOnCharAux sep cs []
    else splitOnCharAux sep cs (c :: acc)

/-- `s.split(sep)` for a one-character separator. -/
def splitOnChar (sep : Char) (xs : List Char) : List (List Char) :=
  splitOnCharAux sep xs []

/-- The prefix of a character list up to the first occurrence of `sep`
(`s.split(sep)[0]` for a multi-character separator). -/
def takeUntilSeq (sep : List Char) : List Char → List Char
  | [] => []
  | c :: cs => if sep.isPrefixOf (c :: cs) then [] else c :: takeUntilSeq sep cs

/-- Parse the decimal literals Python's `float()` receives from the schedule
names under test (`"25"`, `"10"`, optionally with a fractional part). -/
def parsePyFloat (cs : List Char) : Option ℚ :=
  match splitOnChar '.' cs with
  | [intPart] => (parseNatDigits intPart).map (fun n => (n : ℚ))
  | [intPart, fracPart] =>
    match parseNatDigits intPart, parseNatDigits fracPart with
    | some n, some f => some ((n : ℚ) + (f : ℚ) / (10 : ℚ) ^ fracPart.length)
    | _, _ => none
  | _ => none

/-- `float(method.split("_")[1].split("pc")[0]) / 100`: the drop percentage
parsed from a `fixed_Xpc` / `progressive_Xpc` schedule name (Python's
`[1]` raises when the split has no second part, modelled by `Option`). -/
def parseSchedulePc (method : String) : Option ℚ := do
  let part ← (splitOnChar '_' method.toList).get? 1
  let numStr := takeUntilSeq ("pc".toList) part
  let x ← parsePyFloat numStr
  pure (x / 100)

/-- `set_token_sparsity` (lines 109–129).  Returns the `sparse_aggression`
the method stores for the layer — the *retained* fraction of tokens (the
drop fraction is `1 −` the returned value).  Unknown schedule names raise,
modelled as `Except.error`. -/
def setTokenSparsity (method : String) (layerIdx : ℕ) : Except String ℚ :=
  if method = "LazyLLM" then
    if layerIdx ≤ 9 then .ok 1
    else if layerIdx ≤ 19 then .ok (7/10)
    else if layerIdx ≤ 28 then .ok (2/5)
    else .ok (1/10)
  else if ("fixed".toList <:+: method.toList) then
    if layerIdx = 0 then .ok 1
    else
      match parseSchedulePc method with
      | some x => .ok (1 - x)
      | none => .error ("ValueError: could not convert string to float")
  else if ("progressive".toList <:+: method.toList) then
    match parseSchedulePc method with
    | some x => .ok ((1 - x) ^ layerIdx)
    | none => .error ("ValueError: could not convert string to float")
  else .error ("Unknown token sparsity method " ++ method)

/-- The kinds of `past_key_value` object `forward` can receive: a
`BaselineDynamicCache` (a subclass of `DynamicCache`), a plain
`DynamicCache` (with its stored sequence length), or some unrelated object.
-/
inductive PastKVInput where
  | baselineCache (seqLen : ℕ)
  | dynamicCache (seqLen : ℕ)
  | otherObject
deriving DecidableEq, Repr

/-- The cache-normalisation preamble of `forward` (lines 183–186):
a non-`BaselineDynamicCache` argument is either rejected (a plain
`DynamicCache` with nonzero stored length fails the assertion) or replaced
by a fresh empty `BaselineDynamicCache`. -/
def normalizePastKV : Option PastKVInput → Except String (Option PastKVInput)
  | none => .ok none
  | some (.baselineCache n) => .ok (some (.baselineCache n))
  | some (.dynamicCache n) =>
    if n = 0 then .ok (some (.baselineCache 0))
    else .error ("If past_key_value is DynamicCache, then it must be empty")
  | some .otherObject => .ok (some (.baselineCache 0))

/-- The eval modes listed at line 264. -/
def oracleModeList : List String :=
  ["oracle", "random", "init_oracle", "lookahead_oracle"]

/-- Scores viewed as logits (no mask yet). -/
def liftScores (S : ℕ → ℕ → ℚ) : ℕ → ℕ → WithBot ℚ :=
  fun q k => ((S q k : ℚ) : WithBot ℚ)

/-- Pointwise addition of an additive mask to the logits. -/
def addMask2 (w m : ℕ → ℕ → WithBot ℚ) : ℕ → ℕ → WithBot ℚ :=
  fun q k => w q k + m q k

/-- Lines 702–703: after the policy dispatch, `attention_mask` is added to
the logits whenever `q_len != 1`. -/
def finalizeLogits (qLen : ℕ) (attnMask w : ℕ → ℕ → WithBot ℚ) :
    ℕ → ℕ → WithBot ℚ :=
  if qLen ≠ 1 then addMask2 w attnMask else w

/-- The policy dispatch of `forward` (lines 261–703), producing the
pre-softmax logits for one (batch × head) row.  `S q k` is the scaled score
row `(Q·Kᵀ)/√head_dim` (the square root is irrational, so the scaled scores
are a parameter), `attnMask` the caller-supplied or built causal mask,
`sortedIdx` the descending importance ranking used by the top-k policies
(oracle family / streamingLLM / oracle_grouped / quest — their softmax-,
`ll_six`- or page-based rankings are abstracted into this parameter),
`impSnap` the snapkv pooled observation-window importance, `snapCache` /
`wrongCache` the persisted single-row masks with their lengths, and
`h2oHist` the persisted `(active_tokens, active_counts)` pair.

Branch order mirrors the source `elif` chain; in particular any mode name
containing `"oracle"` — including `"oracle_grouped"` — is captured by the
oracle-family branch, line 264, so the dedicated `oracle_grouped` branch at
line 322 is unreachable. -/
def forwardLogits (mode : String) (layerIdx qLen kvLen msi : ℕ) (a : ℚ)
    (S : ℕ → ℕ → ℚ) (attnMask : ℕ → ℕ → WithBot ℚ)
    (sortedIdx : ℕ → ℕ → ℕ) (impSnap : ℕ → ℕ → ℚ)
    (snapCache : Option ((ℕ → WithBot ℚ) × ℕ))
    (wrongCache : Option ((ℕ → WithBot ℚ) × ℕ))
    (h2oHist : Option EvictState) :
    Except String (ℕ → ℕ → WithBot ℚ) :=
  let base := liftScores S
  if mode = "dense" then
    .ok (finalizeLogits qLen attnMask base)
  else if mode ∈ oracleModeList ∨ ("oracle".toList <:+: mode.toList) then
    if 0 < layerIdx then
      if a < 1 then
        let m := fun q k => sortedIndexToMask sortedIdx msi qLen kvLen a q k
        let w := if qLen ≠ 1 then addMask2 (addMask2 base m) attnMask
          else addMask2 base m
        .ok (finalizeLogits qLen attnMask w)
      else .ok (finalizeLogits qLen attnMask base)
    else .ok (finalizeLogits qLen attnMask base)
  else if mode = "streamingLLM" then
    if 0 < layerIdx then
      let m := fun q k => sortedIndexToMask sortedIdx msi qLen kvLen a q k
      .ok (finalizeLogits qLen attnMask (addMask2 (addMask2 base m) attnMask))
    else .ok (finalizeLogits qLen attnMask base)
  else if mode = "oracle_grouped" then
    if 0 < layerIdx then
      let m := fun q k => sortedIndexToMask sortedIdx msi qLen kvLen a q k
      .ok (finalizeLogits qLen attnMask (addMask2 (addMask2 base m) attnMask))
    else .ok (finalizeLogits qLen attnMask base)
  else if mode = "snapkv_prefill_wrong" then
    if 0 < layerIdx then
      if qLen = 1 then
        match wrongCache with
        | some (c, clen) =>
          .ok (finalizeLogits qLen attnMask
            (addMask2 base (fun _ k => wrongDecodeExtend c clen kvLen k)))
        | none => .ok (finalizeLogits qLen attnMask base)
      else
        match wrongCache with
        | some (c, _) =>
          .ok (finalizeLogits qLen attnMask
            (fun q k => if q = qLen - 1 then base q k + c k else base q k))
        | none => .ok (finalizeLogits qLen attnMask base)
    else .ok (finalizeLogits qLen attnMask base)
  else if mode = "snapkv" then
    if 0 < layerIdx then
      if qLen = 1 then
        match snapCache with
        | none =>
          .error ("AttributeError: NoneType object has no attribute size")
        | some (c, clen) =>
          .ok (finalizeLogits qLen attnMask
            (addMask2 base (fun _ k => snapkvDecodeExtend c clen k)))
      else
        .ok (finalizeLogits qLen attnMask
          (addMask2 base (fun q k => prefillMaskRow impSnap a msi qLen q k)))
    else .ok (finalizeLogits qLen attnMask base)
  else if mode = "h2o_true" then
    if 0 < layerIdx then
      match qLen, h2oHist with
      | 1, some prev =>
        .ok (finalizeLogits 1 attnMask
          (addMask2 base (fun _ k => (h2oDecodeStep (S 0) a msi kvLen prev).1 k)))
      | _, _ =>
        .ok (finalizeLogits qLen attnMask
          (addMask2 base (fun q k => prefillMaskRow S a msi qLen q k)))
    else .ok (finalizeLogits qLen attnMask base)
  else if mode = "quest" then
    if 0 < layerIdx then
      let m := fun q k => sortedIndexToMask sortedIdx msi qLen kvLen a q k
      .ok (finalizeLogits qLen attnMask (addMask2 (addMask2 base m) attnMask))
    else .ok (finalizeLogits qLen attnMask base)
  else .error ("Unknown eval mode " ++ mode)

section Scratch

/-- Importance signal for a concrete 3-token run: at step 1 token 1 beats
token 0, at step 2 the new token 2 is beaten by token 1. -/
def impTest : ℕ → ℕ → ℚ :=
  fun i t =>
    if i = 1 then (if t = 1 then 1 else 0)
    else (if t = 1 then 5 else 0)

/-- Concrete `h2o_true` prefill score rows: token 1 beats token 0 at step 1,
so token 0 is evicted from the active set. -/
def impPrefillC2 : ℕ → ℕ → ℚ := fun _ t => if t = 1 then 1 else 0

/-- Concrete `h2o_true` decode score row: the new token 2 loses against the
active token 1. -/
def rowWC2 : ℕ → ℚ := fun t => if t = 1 then 5 else 0

example : (evictLoop impTest (1/2) 1 1).count = 1 := by
  norm_num [evictLoop, evictStep, stepBudget, pyInt, initEvictState, argminIdxFn, impTest]
example : (evictLoop impTest (1/2) 1 1).tokens 0 = 1 := by
  norm_num [evictLoop, evictStep, stepBudget, pyInt, initEvictState, argminIdxFn, impTest,
    Function.update_apply]
example : prefillMaskRow impTest (1/2) 1 2 1 0 = ((0 : ℚ) : WithBot ℚ) := by
  norm_num [prefillMaskRow]
example : prefillMaskRow impTest (1/2) 1 2 1 1 = ((0 : ℚ) : WithBot ℚ) := by
  norm_num [prefillMaskRow, evictLoop, evictStep, stepBudget, pyInt, initEvictState,
    argminIdxFn, impTest, Function.update_apply, List.range_succ]
example : prefillMaskRow impTest (1/2) 1 3 2 2 = ⊥ := by
  norm_num [prefillMaskRow, evictLoop, evictStep, stepBudget, pyInt, initEvictState,
    argminIdxFn, impTest, Function.update_apply, List.range_succ]
example : snapkvDecodeExtend (snapkvLastRow impTest (1/2) 1 2) 2 2
    = ((0 : ℚ) : WithBot ℚ) := by
  norm_num [snapkvDecodeExtend]

end Scratch

/-! ## Helper lemmas: budgets, the argmin scan, and loop counts -/

theorem pyInt_of_nonneg (q : ℚ) (h : 0 ≤ q) : pyInt q = ⌊q⌋ := by
  simp [pyInt, h]

theorem stepBudget_mono (a : ℚ) (ha : 0 ≤ a) (msi i : ℕ) :
    stepBudget a msi i ≤ stepBudget a msi (i + 1) := by
  have hle : ((i : ℚ) + 1) * a ≤ (((i + 1 : ℕ) : ℚ) + 1) * a := by
    have : ((i : ℚ) + 1) ≤ (((i + 1 : ℕ) : ℚ) + 1) := by push_cast; linarith
    exact mul_le_mul_of_nonneg_right this ha
  have h0 : 0 ≤ ((i : ℚ) + 1) * a := by
    apply mul_nonneg _ ha; positivity
  have h0' : 0 ≤ (((i + 1 : ℕ) : ℚ) + 1) * a := by
    apply mul_nonneg _ ha; positivity
  unfold stepBudget
  rw [pyInt_of_nonneg _ h0, pyInt_of_nonneg _ h0']
  have h1 := Int.floor_le_floor hle
  have h2 := Int.toNat_le_toNat h1
  omega

theorem stepBudget_succ_le (a : ℚ) (ha0 : 0 ≤ a) (ha1 : a ≤ 1) (msi i : ℕ) :
    stepBudget a msi (i + 1) ≤ stepBudget a msi i + 1 := by
  have key : ⌊(((i + 1 : ℕ) : ℚ) + 1) * a⌋ ≤ ⌊((i : ℚ) + 1) * a⌋ + 1 := by
    have h1 : (((i + 1 : ℕ) : ℚ) + 1) * a = ((i : ℚ) + 1) * a + a := by
      push_cast; ring
    rw [h1]
    calc ⌊((i : ℚ) + 1) * a + a⌋ ≤ ⌊((i : ℚ) + 1) * a + 1⌋ :=
          Int.floor_le_floor (by linarith)
    _ = ⌊((i : ℚ) + 1) * a⌋ + 1 := by
          exact_mod_cast Int.floor_add_one (((i : ℚ) + 1) * a)
  have h0 : 0 ≤ ((i : ℚ) + 1) * a := by
    apply mul_nonneg _ ha0; positivity
  have h0' : 0 ≤ (((i + 1 : ℕ) : ℚ) + 1) * a := by
    apply mul_nonneg _ ha0; positivity
  unfold stepBudget
  rw [pyInt_of_nonneg _ h0, pyInt_of_nonneg _ h0']
  have h2 := Int.toNat_le_toNat key
  omega

theorem stepBudget_pos (a : ℚ) (msi i : ℕ) (h : 1 ≤ msi) :
    1 ≤ stepBudget a msi i :=
  le_trans h (le_max_right _ _)

theorem evictStep_count (imp : ℕ → ℚ) (b i : ℕ) (st : EvictState) :
    (evictStep imp b i st).count =
      if st.count < b then st.count + 1 else st.count := by
  unfold evictStep
  split_ifs <;> rfl

theorem evictLoop_succ (imp : ℕ → ℕ → ℚ) (a : ℚ) (msi n : ℕ) :
    evictLoop imp a msi (n + 1) =
      evictStep (imp (n + 1)) (stepBudget a msi (n + 1)) (n + 1)
        (evictLoop imp a msi n) := rfl

theorem evictLoop_zero_count (imp : ℕ → ℕ → ℚ) (a : ℚ) (msi : ℕ) :
    (evictLoop imp a msi 0).count = 1 := rfl

theorem evictLoop_count_mono (imp : ℕ → ℕ → ℚ) (a : ℚ) (msi i : ℕ) :
    (evictLoop imp a msi i).count ≤ (evictLoop imp a msi (i + 1)).count := by
  rw [evictLoop_succ, evictStep_count]
  split_ifs <;> omega

theorem evictLoop_count_le_budget (imp : ℕ → ℕ → ℚ) (a : ℚ) (msi : ℕ)
    (ha0 : 0 ≤ a) (hmsi : 1 ≤ msi) :
    ∀ i, (evictLoop imp a msi (i + 1)).count ≤ stepBudget a msi (i + 1) := by
  intro i
  induction i with
  | zero =>
    have h1 := stepBudget_pos a msi (0 + 1) hmsi
    rw [evictLoop_succ, evictStep_count, evictLoop_zero_count]
    split_ifs <;> omega
  | succ n ih =>
    have hmono := stepBudget_mono a ha0 msi (n + 1)
    rw [evictLoop_succ, evictStep_count]
    split_ifs <;> omega

theorem evictLoop_count_stays (imp : ℕ → ℕ → ℚ) (a : ℚ) (msi : ℕ)
    (ha0 : 0 ≤ a) (ha1 : a ≤ 1) :
    ∀ i j, 1 ≤ i → i ≤ j →
      (evictLoop imp a msi i).count = stepBudget a msi i →
      (evictLoop imp a msi j).count = stepBudget a msi j := by
  intro i j hi hij h
  induction j with
  | zero => exact absurd (hi.trans hij) (by omega)
  | succ n ih =>
    rcases Nat.eq_or_lt_of_le hij with heq | hlt
    · exact heq ▸ h
    · have hn : i ≤ n := by omega
      have hcount := ih hn
      have hmono := stepBudget_mono a ha0 msi n
      have hsucc := stepBudget_succ_le a ha0 ha1 msi n
      rw [evictLoop_succ, evictStep_count]
      rw [hcount]
      split_ifs with hc <;> omega

theorem argminIdxFn_lt (f : ℕ → ℚ) : ∀ n, 1 ≤ n → argminIdxFn f n < n
  | 0, h => absurd h (by omega)
  | 1, _ => by simp [argminIdxFn]
  | n + 2, _ => by
    have ih := argminIdxFn_lt f (n + 1) (by omega)
    simp only [argminIdxFn]
    split_ifs <;> omega

theorem argminIdxFn_min (f : ℕ → ℚ) :
    ∀ n k, k < n → f (argminIdxFn f n) ≤ f k
  | 0, k, hk => absurd hk (by omega)
  | 1, k, hk => by
    have hk0 : k = 0 := by omega
    subst hk0
    simp [argminIdxFn]
  | n + 2, k, hk => by
    have ih := fun k hk => argminIdxFn_min f (n + 1) k hk
    simp only [argminIdxFn]
    split_ifs with h
    · rcases Nat.lt_succ_iff_lt_or_eq.mp hk with hk' | hk'
      · exact le_trans (le_of_lt h) (ih k hk')
      · subst hk'; exact le_refl _
    · rcases Nat.lt_succ_iff_lt_or_eq.mp hk with hk' | hk'
      · exact ih k hk'
      · subst hk'; exact le_of_not_lt h

theorem evictStep_discard (imp : ℕ → ℚ) (b i : ℕ) (st : EvictState)
    (hb : b ≠ 0) (hc : ¬ st.count < b)
    (h : ¬ imp (st.tokens (argminIdxFn (fun p => imp (st.tokens p)) b))
        < imp i) :
    evictStep imp b i st = st := by
  unfold evictStep
  rw [if_neg hc, if_neg hb, if_neg h]

theorem evictStep_replace (imp : ℕ → ℚ) (b i : ℕ) (st : EvictState)
    (hb : b ≠ 0) (hc : ¬ st.count < b)
    (h : imp (st.tokens (argminIdxFn (fun p => imp (st.tokens p)) b))
        < imp i) :
    evictStep imp b i st =
      { tokens := Function.update st.tokens
          (argminIdxFn (fun p => imp (st.tokens p)) b) i,
        count := st.count } := by
  unfold evictStep
  rw [if_neg hc, if_neg hb, if_pos h]

/-! ## C3: invariants of the incremental eviction loop -/

/-- **C3** (confirmed): throughout the incremental eviction loop shared by
the `snapkv` and `h2o_true` prefill branches, for every (batch × head) row
(modelled by an arbitrary importance signal `imp`): the active count is
non-decreasing; it never exceeds the step budget; once it equals the step
budget it stays equal to the (growing) budget from then on; and at capacity
a step either replaces the active token of minimum importance (the replaced
slot's importance is ≤ every active slot's importance) — and this happens
exactly when the new token's importance is strictly greater than that
minimum — or else the new token is discarded and the state is unchanged. -/
theorem eviction_loop_invariants (imp : ℕ → ℕ → ℚ) (a : ℚ) (msi : ℕ)
    (ha0 : 0 ≤ a) (ha1 : a ≤ 1) (hmsi : 1 ≤ msi) :
    (∀ i, (evictLoop imp a msi i).count ≤ (evictLoop imp a msi (i + 1)).count)
    ∧ (∀ i, (evictLoop imp a msi (i + 1)).count ≤ stepBudget a msi (i + 1))
    ∧ (∀ i j, 1 ≤ i → i ≤ j →
        (evictLoop imp a msi i).count = stepBudget a msi i →
        (evictLoop imp a msi j).count = stepBudget a msi j)
    ∧ (∀ (b i : ℕ) (st : EvictState), 1 ≤ b → ¬ st.count < b → ∀ p, p < b →
        imp i (st.tokens (argminIdxFn (fun p => imp i (st.tokens p)) b))
          ≤ imp i (st.tokens p))
    ∧ (∀ (b i : ℕ) (st : EvictState), 1 ≤ b → ¬ st.count < b →
        imp i (st.tokens (argminIdxFn (fun p => imp i (st.tokens p)) b))
            < imp i i →
        evictStep (imp i) b i st =
          { tokens := Function.update st.tokens
              (argminIdxFn (fun p => imp i (st.tokens p)) b) i,
            count := st.count })
    ∧ (∀ (b i : ℕ) (st : EvictState), 1 ≤ b → ¬ st.count < b →
        ¬ imp i (st.tokens (argminIdxFn (fun p => imp i (st.tokens p)) b))
            < imp i i →
        evictStep (imp i) b i st = st) := by
  refine ⟨fun i => evictLoop_count_mono imp a msi i,
    evictLoop_count_le_budget imp a msi ha0 hmsi,
    evictLoop_count_stays imp a msi ha0 ha1,
    fun b i st _ _ p hp =>
      argminIdxFn_min (fun p => imp i (st.tokens p)) b p hp,
    fun b i st hb hc h => evictStep_replace (imp i) b i st (by omega) hc h,
    fun b i st hb hc h => evictStep_discard (imp i) b i st (by omega) hc h⟩

/-- Witness for C3: the invariants instantiated at the concrete importance
signal `impTest`, retained fraction `1/2` and `min_sparse_index = 1`. -/
theorem eviction_loop_invariants_witness :
    (∀ i, (evictLoop impTest (1/2) 1 i).count
        ≤ (evictLoop impTest (1/2) 1 (i + 1)).count)
    ∧ (∀ i, (evictLoop impTest (1/2) 1 (i + 1)).count
        ≤ stepBudget (1/2) 1 (i + 1))
    ∧ (∀ i j, 1 ≤ i → i ≤ j →
        (evictLoop impTest (1/2) 1 i).count = stepBudget (1/2) 1 i →
        (evictLoop impTest (1/2) 1 j).count = stepBudget (1/2) 1 j)
    ∧ (∀ (b i : ℕ) (st : EvictState), 1 ≤ b → ¬ st.count < b → ∀ p, p < b →
        impTest i (st.tokens (argminIdxFn (fun p => impTest i (st.tokens p)) b))
          ≤ impTest i (st.tokens p))
    ∧ (∀ (b i : ℕ) (st : EvictState), 1 ≤ b → ¬ st.count < b →
        impTest i (st.tokens (argminIdxFn (fun p => impTest i (st.tokens p)) b))
            < impTest i i →
        evictStep (impTest i) b i st =
          { tokens := Function.update st.tokens
              (argminIdxFn (fun p => impTest i (st.tokens p)) b) i,
            count := st.count })
    ∧ (∀ (b i : ℕ) (st : EvictState), 1 ≤ b → ¬ st.count < b →
        ¬ impTest i (st.tokens (argminIdxFn (fun p => impTest i (st.tokens p)) b))
            < impTest i i →
        evictStep (impTest i) b i st = st) :=
  eviction_loop_invariants impTest (1/2) 1 (by norm_num) (by norm_num)
    (by norm_num)

/-! ## C4: the step-budget formula -/

/-- **C4 counterexample**: with retained fraction `a = 1/2` (aggression
drop `1/2`), `min_sparse_index = 1` and 0-indexed step `i = 2`, the code's
budget is `max(int(3 · 1/2), 1) = 1` while the claim's formula gives
`max(round(3 · 1/2), 1) = 2`. -/
theorem stepBudget_round_counterexample :
    stepBudget (1/2) 1 2 = 1 ∧ claimStepBudget (1/2) 1 2 = 2 := by
  constructor
  · norm_num [stepBudget, pyInt]
  · norm_num [claimStepBudget, round_eq] <;> omega

/-- **C4 (amended)**: the per-step budget at 0-indexed step `i` equals
`max(⌊(i+1) × (1 − aggression)⌋, min_sparse_index)` — Python `int`
truncation (= floor on non-negatives), not `round` — and is monotonically
non-decreasing in `i`; the `h2o_true` decode-step recomputation
`max(min_sparse_index, int(kv_seq_len × retained))` coincides with the
prefill-step formula at `i = kv_seq_len − 1`. -/
theorem stepBudget_floor_and_monotone (a : ℚ) (msi i : ℕ) (ha : 0 ≤ a) :
    stepBudget a msi i = max (⌊((i : ℚ) + 1) * a⌋).toNat msi
    ∧ stepBudget a msi i ≤ stepBudget a msi (i + 1)
    ∧ (∀ k : ℕ, 1 ≤ k →
        max (pyInt ((k : ℚ) * a)).toNat msi = stepBudget a msi (k - 1)) := by
  refine ⟨?_, stepBudget_mono a ha msi i, ?_⟩
  · unfold stepBudget
    rw [pyInt_of_nonneg _ (mul_nonneg (by positivity) ha)]
  · intro k hk
    have hc : (((k - 1 : ℕ) : ℚ) + 1) = (k : ℚ) := by
      rw [Nat.cast_sub hk]
      push_cast
      ring
    unfold stepBudget
    rw [hc]

/-- Witness for C4 (amended), at `a = 1/2`, `min_sparse_index = 1`,
`i = 2`. -/
theorem stepBudget_floor_and_monotone_witness :
    stepBudget (1/2) 1 2 = max (⌊((2 : ℚ) + 1) * (1/2)⌋).toNat 1
    ∧ stepBudget (1/2) 1 2 ≤ stepBudget (1/2) 1 (2 + 1)
    ∧ (∀ k : ℕ, 1 ≤ k →
        max (pyInt ((k : ℚ) * (1/2))).toNat 1 = stepBudget (1/2) 1 (k - 1)) := by
  have h := stepBudget_floor_and_monotone (1/2) 1 2 (by norm_num)
  exact_mod_cast h

/-! ## C5: the built causal mask -/

/-- **C5 counterexample**: with `Q = 1, K = 2` (one query against two keys),
the built mask assigns `-inf` at `(i, j) = (0, 1)` — the single query may
only attend key 0 — while the claimed tail alignment requires `0` there. -/
theorem causal_mask_alignment_counterexample :
    buildCausalMask 1 2 0 1 = ⊥
    ∧ specCausalMask 1 2 0 1 = ((0 : ℚ) : WithBot ℚ) := by
  constructor
  · simp [buildCausalMask]
  · simp [specCausalMask]

/-- **C5 (amended)**: the mask built when no attention mask is supplied is
`-inf` exactly on the top-left-aligned strict upper triangle (`j > i`), `0`
elsewhere — the `Q` query rows are treated as the *first* `Q` of the `K`
key positions, not the last.  It agrees with the claimed tail-aligned mask
on the whole `(Q, K)` block exactly when `K = Q`. -/
theorem buildCausalMask_characterization (Q K : ℕ) (hQ : 1 ≤ Q)
    (hK : Q ≤ K) :
    (∀ i j, buildCausalMask Q K i j = ⊥ ↔ i < j)
    ∧ ((∀ i j, i < Q → j < K →
        buildCausalMask Q K i j = specCausalMask Q K i j) ↔ K = Q) := by
  constructor
  · intro i j
    constructor
    · intro hb
      by_contra hij
      unfold buildCausalMask at hb
      rw [if_neg (by omega)] at hb
      exact WithBot.coe_ne_bot hb
    · intro hij
      unfold buildCausalMask
      rw [if_pos (by omega)]
  · constructor
    · intro hall
      by_contra hne
      have hKQ : Q < K := lt_of_le_of_ne hK (Ne.symm hne)
      have h1 := hall 0 1 (by omega) (by omega)
      unfold buildCausalMask specCausalMask at h1
      rw [if_pos (by omega), if_neg (by omega)] at h1
      exact WithBot.coe_ne_bot h1.symm
    · intro hKQ
      subst hKQ
      intro i j _ _
      unfold buildCausalMask specCausalMask
      rw [Nat.sub_self, Nat.zero_add]

/-- Witness for C5 (amended), at `Q = K = 1`. -/
theorem buildCausalMask_characterization_witness :
    (∀ i j, buildCausalMask 1 1 i j = ⊥ ↔ i < j)
    ∧ ((∀ i j, i < 1 → j < 1 →
        buildCausalMask 1 1 i j = specCausalMask 1 1 i j) ↔ 1 = 1) :=
  buildCausalMask_characterization 1 1 (by norm_num) (by norm_num)

/-! ## C9: cache normalisation -/

/-- **C9** (confirmed): a `past_key_value` that is not a
`BaselineDynamicCache` is rejected with the assertion message when it is a
plain `DynamicCache` with nonzero stored length, and is otherwise discarded
and replaced by a fresh empty `BaselineDynamicCache`; a
`BaselineDynamicCache` passes through untouched. -/
theorem past_key_value_normalization :
    (∀ n : ℕ, normalizePastKV (some (.dynamicCache n)) =
        if n = 0 then .ok (some (.baselineCache 0))
        else .error ("If past_key_value is DynamicCache, then it must be empty"))
    ∧ normalizePastKV (some .otherObject) = .ok (some (.baselineCache 0))
    ∧ (∀ n : ℕ, normalizePastKV (some (.baselineCache n)) =
        .ok (some (.baselineCache n))) :=
  ⟨fun _ => rfl, rfl, fun _ => rfl⟩

/-! ## C10: decode-time mask extension -/

/-- **C10** (confirmed): in the `snapkv` and `snapkv_prefill_wrong`
single-token decode branches, every key position at an index at or beyond
the persisted mask's length is assigned `0.0` in the extended mask, so each
token appended after the persisted mask is unconditionally attendable in
that decode step and is never tested against the eviction budget. -/
theorem decode_extension_unmasks_appended_tokens
    (cache : ℕ → WithBot ℚ) (origLen kvLen j : ℕ)
    (h1 : origLen ≤ j) (h2 : j < kvLen) :
    snapkvDecodeExtend cache origLen j = ((0 : ℚ) : WithBot ℚ)
    ∧ wrongDecodeExtend cache origLen kvLen j = ((0 : ℚ) : WithBot ℚ) := by
  constructor
  · unfold snapkvDecodeExtend
    rw [if_neg (by omega)]
  · unfold wrongDecodeExtend
    rw [if_neg (by omega)]

/-- Witness for C10: a persisted mask of length 2 extended to `kv_len = 3`
leaves position 2 attendable in both variants. -/
theorem decode_extension_unmasks_appended_tokens_witness :
    snapkvDecodeExtend (fun _ => ⊥) 2 2 = ((0 : ℚ) : WithBot ℚ)
    ∧ wrongDecodeExtend (fun _ => ⊥) 2 3 2 = ((0 : ℚ) : WithBot ℚ) :=
  decode_extension_unmasks_appended_tokens (fun _ => ⊥) 2 3 2
    (by norm_num) (by norm_num)

/-! ## C2: the always-kept prefix -/

/-- **C2 counterexample**: `h2o_true` with aggression drop `1/2` (retained
`a = 1/2 < 1`) and `min_sparse_index = 1`: after a 2-token prefill in which
token 0 is evicted from the active set (the prefill *mask* still
force-zeroes the prefix, but the persisted active set no longer contains
token 0), the decode step's selection mask assigns `-inf` to position
`0 < min_sparse_index`, which is causally available to the final query. -/
theorem h2o_decode_masks_prefix_position :
    (h2oDecodeStep rowWC2 (1/2) 1 3 (evictLoop impPrefillC2 (1/2) 1 1)).1 0 = ⊥
    ∧ (0 : ℕ) < 1 ∧ (1 : ℚ)/2 < 1 := by
  refine ⟨?_, by norm_num, by norm_num⟩
  norm_num [h2oDecodeStep, evictLoop, evictStep, stepBudget, pyInt,
    initEvictState, argminIdxFn, impPrefillC2, rowWC2, Function.update_apply,
    List.range_succ]

/-- **C2 (amended)**: key positions in `[0, min_sparse_index)` that are
causally available are never assigned `-inf` by the selection mask — in the
top-k policies (oracle family, streamingLLM, oracle_grouped, quest; any
importance ranking), in the snapkv/h2o prefill masks (which force-zero the
prefix on every row), and in the `snapkv` decode mask seeded from a prefill
row; the `snapkv_prefill_wrong` decode extension preserves a kept prefix of
its cached row.  The exception forced by the counterexample is the
`h2o_true` decode branch, which omits the prefix force-zeroing and can mask
a prefix position whose token was evicted from the active set during
prefill. -/
theorem prefix_positions_never_masked :
    (∀ (sortedIdx : ℕ → ℕ → ℕ) (msi qLen kvLen q k : ℕ) (a : ℚ),
        k < msi → k ≤ (kvLen - qLen) + q →
        sortedIndexToMask sortedIdx msi qLen kvLen a q k
          = ((0 : ℚ) : WithBot ℚ))
    ∧ (∀ (imp : ℕ → ℕ → ℚ) (a : ℚ) (msi qLen row k : ℕ), k < msi →
        prefillMaskRow imp a msi qLen row k = ((0 : ℚ) : WithBot ℚ))
    ∧ (∀ (imp : ℕ → ℕ → ℚ) (a : ℚ) (msi qLen origLen k : ℕ), k < msi →
        snapkvDecodeExtend (snapkvLastRow imp a msi qLen) origLen k
          = ((0 : ℚ) : WithBot ℚ))
    ∧ (∀ (cache : ℕ → WithBot ℚ) (cachedLen kvLen msi k : ℕ), k < msi →
        cache k = ((0 : ℚ) : WithBot ℚ) →
        wrongDecodeExtend cache cachedLen kvLen k
          = ((0 : ℚ) : WithBot ℚ)) := by
  have hpf : ∀ (imp : ℕ → ℕ → ℚ) (a : ℚ) (msi qLen row k : ℕ), k < msi →
      prefillMaskRow imp a msi qLen row k = ((0 : ℚ) : WithBot ℚ) := by
    intro imp a msi qLen row k hk
    simp only [prefillMaskRow]
    rw [if_pos hk]
  refine ⟨?_, hpf, ?_, ?_⟩
  · intro sortedIdx msi qLen kvLen q k a hk hcaus
    unfold sortedIndexToMask
    rw [if_neg (by omega), if_pos hk]
  · intro imp a msi qLen origLen k hk
    unfold snapkvDecodeExtend snapkvLastRow
    split_ifs with h
    · exact hpf imp a msi qLen (qLen - 1) k hk
    · rfl
  · intro cache cachedLen kvLen msi k hk hcache
    unfold wrongDecodeExtend
    split_ifs with h
    · exact hcache
    · rfl

/-- Witness for C2 (amended): each kept-prefix fact at a concrete input. -/
theorem prefix_positions_never_masked_witness :
    sortedIndexToMask (fun _ _ => 0) 2 3 3 (1/2) 1 0 = ((0 : ℚ) : WithBot ℚ)
    ∧ prefillMaskRow impTest (1/2) 2 3 2 1 = ((0 : ℚ) : WithBot ℚ)
    ∧ snapkvDecodeExtend (snapkvLastRow impTest (1/2) 2 3) 3 1
        = ((0 : ℚ) : WithBot ℚ)
    ∧ wrongDecodeExtend (fun _ => ((0 : ℚ) : WithBot ℚ)) 3 4 1
        = ((0 : ℚ) : WithBot ℚ) :=
  ⟨prefix_positions_never_masked.1 (fun _ _ => 0) 2 3 3 1 0 (1/2)
      (by norm_num) (by norm_num),
   prefix_positions_never_masked.2.1 impTest (1/2) 2 3 2 1 (by norm_num),
   prefix_positions_never_masked.2.2.1 impTest (1/2) 2 3 3 1 (by norm_num),
   prefix_positions_never_masked.2.2.2 (fun _ => ((0 : ℚ) : WithBot ℚ)) 3 4 2 1
      (by norm_num) rfl⟩

/-! ## C1: decode/prefill consistency -/

/-- **C1** (code bug): decode/prefill consistency fails.  With identical
importance scores `impTest`, retained fraction `1/2` and
`min_sparse_index = 1`: prefill on `N = 2` tokens persists mask row 1; the
`snapkv` decode step for token 2 extends it with an unconditional `0.0` at
position 2 (no eviction test), whereas prefill on `N + 1 = 3` tokens runs
the eviction step at `i = 2`, where token 2 loses the replacement test and
the final row masks position 2 with `-inf`.  (The `h2o_true` decode branch
likewise diverges: the source comments at lines 540–541 say decode-time
correctness is knowingly skipped, and its add branch writes at `count − 1`,
line 561.) -/
theorem snapkv_decode_vs_prefill_divergence :
    snapkvDecodeExtend (snapkvLastRow impTest (1/2) 1 2) 2 2
      = ((0 : ℚ) : WithBot ℚ)
    ∧ snapkvLastRow impTest (1/2) 1 3 2 = ⊥ := by
  constructor
  · norm_num [snapkvDecodeExtend]
  · norm_num [snapkvLastRow, prefillMaskRow, evictLoop, evictStep, stepBudget,
      pyInt, initEvictState, argminIdxFn, impTest, Function.update_apply,
      List.range_succ]

/-! ## C6: scheduler literal checks -/

/-- **C6** (confirmed): `set_token_sparsity` literals.  The stored
`sparse_aggression` is the *retained* fraction: `fixed_25pc` at layer 5
retains `3/4` (drop fraction `1/4`); `progressive_10pc` at layer 3 retains
`0.9³ = 729/1000`; `LazyLLM` retains `1` at layer 9 (0% drop) and `7/10` at
layer 10 (30% drop); in general `LazyLLM` drops 0% for layers ≤ 9, 30% for
≤ 19, 60% for ≤ 28, and 90% for all later layers. -/
theorem token_sparsity_schedule_values :
    setTokenSparsity "fixed_25pc" 5 = .ok (3/4)
    ∧ setTokenSparsity "progressive_10pc" 3 = .ok (729/1000)
    ∧ setTokenSparsity "LazyLLM" 9 = .ok 1
    ∧ setTokenSparsity "LazyLLM" 10 = .ok (7/10)
    ∧ (∀ L : ℕ, setTokenSparsity "LazyLLM" L =
        .ok (if L ≤ 9 then 1 else if L ≤ 19 then 7/10
          else if L ≤ 28 then 2/5 else 1/10)) := by
  refine ⟨?_, ?_, rfl, rfl, ?_⟩
  · have hp : parseSchedulePc "fixed_25pc" = some (((25 : ℕ) : ℚ) / 100) := rfl
    unfold setTokenSparsity
    rw [if_neg (by decide), if_pos (by decide), if_neg (by decide), hp]
    norm_num
  · have hp : parseSchedulePc "progressive_10pc"
        = some (((10 : ℕ) : ℚ) / 100) := rfl
    unfold setTokenSparsity
    rw [if_neg (by decide), if_neg (by decide), if_pos (by decide), hp]
    norm_num
  · intro L
    unfold setTokenSparsity
    rw [if_pos rfl]
    split_ifs <;> rfl

/-! ## C7: unknown schedule / policy names -/

/-- **C7** (confirmed): `set_token_sparsity` raises a `ValueError` for any
schedule name that is not `LazyLLM` and contains neither `fixed` nor
`progressive`, and the `forward` policy dispatch raises for any `evalmode`
matching no branch; in both cases the call aborts without producing a value
(`Except.error`). -/
theorem unknown_name_configuration_errors
    (name mode : String) (L layerIdx qLen kvLen msi : ℕ) (a : ℚ)
    (S : ℕ → ℕ → ℚ) (attnMask : ℕ → ℕ → WithBot ℚ)
    (sortedIdx : ℕ → ℕ → ℕ) (impSnap : ℕ → ℕ → ℚ)
    (snapCache wrongCache : Option ((ℕ → WithBot ℚ) × ℕ))
    (h2oHist : Option EvictState)
    (h1 : name ≠ "LazyLLM")
    (h2 : ¬ ("fixed".toList <:+: name.toList))
    (h3 : ¬ ("progressive".toList <:+: name.toList))
    (h4 : mode ≠ "dense")
    (h5 : ¬ (mode ∈ oracleModeList ∨ ("oracle".toList <:+: mode.toList)))
    (h6 : mode ≠ "streamingLLM") (h7 : mode ≠ "oracle_grouped")
    (h8 : mode ≠ "snapkv_prefill_wrong") (h9 : mode ≠ "snapkv")
    (h10 : mode ≠ "h2o_true") (h11 : mode ≠ "quest") :
    setTokenSparsity name L
      = .error ("Unknown token sparsity method " ++ name)
    ∧ forwardLogits mode layerIdx qLen kvLen msi a S attnMask sortedIdx
        impSnap snapCache wrongCache h2oHist
      = .error ("Unknown eval mode " ++ mode) := by
  constructor
  · unfold setTokenSparsity
    rw [if_neg h1, if_neg h2, if_neg h3]
  · simp only [forwardLogits]
    rw [if_neg h4, if_neg h5, if_neg h6, if_neg h7, if_neg h8, if_neg h9,
      if_neg h10, if_neg h11]

/-- Witness for C7, at the unknown names `"foo"` and `"bar"`. -/
theorem unknown_name_configuration_errors_witness :
    setTokenSparsity "foo" 3
      = .error ("Unknown token sparsity method " ++ "foo")
    ∧ forwardLogits "bar" 1 2 2 1 (1/2) (fun _ _ => 0) (fun _ _ => 0)
        (fun _ _ => 0) (fun _ _ => 0) none none none
      = .error ("Unknown eval mode " ++ "bar") :=
  unknown_name_configuration_errors "foo" "bar" 3 1 2 2 1 (1/2)
    (fun _ _ => 0) (fun _ _ => 0) (fun _ _ => 0) (fun _ _ => 0) none none none
    (by decide) (by decide) (by decide) (by decide) (by decide) (by decide)
    (by decide) (by decide) (by decide) (by decide) (by decide)

/-! ## C8: layer 0 is always dense -/

/-- **C8** (confirmed): for every recognised policy, a layer with
`layer_idx = 0` applies no selection mask: its logits are the scaled scores
plus only the caller's causal/attention mask (added whenever `q_len ≠ 1`;
in a single-token decode no mask is added, causality being automatic) —
identical to the `dense` policy. -/
theorem layer_zero_dense_equivalence
    (mode : String) (qLen kvLen msi : ℕ) (a : ℚ)
    (S : ℕ → ℕ → ℚ) (attnMask : ℕ → ℕ → WithBot ℚ)
    (sortedIdx : ℕ → ℕ → ℕ) (impSnap : ℕ → ℕ → ℚ)
    (snapCache wrongCache : Option ((ℕ → WithBot ℚ) × ℕ))
    (h2oHist : Option EvictState)
    (h : mode = "dense"
      ∨ (mode ∈ oracleModeList ∨ ("oracle".toList <:+: mode.toList))
      ∨ mode ∈ ["streamingLLM", "oracle_grouped", "snapkv_prefill_wrong",
          "snapkv", "h2o_true", "quest"]) :
    forwardLogits mode 0 qLen kvLen msi a S attnMask sortedIdx impSnap
        snapCache wrongCache h2oHist
      = .ok (finalizeLogits qLen attnMask (liftScores S))
    ∧ forwardLogits mode 0 qLen kvLen msi a S attnMask sortedIdx impSnap
        snapCache wrongCache h2oHist
      = forwardLogits "dense" 0 qLen kvLen msi a S attnMask sortedIdx impSnap
          snapCache wrongCache h2oHist := by
  have hd : forwardLogits "dense" 0 qLen kvLen msi a S attnMask sortedIdx
      impSnap snapCache wrongCache h2oHist
      = .ok (finalizeLogits qLen attnMask (liftScores S)) := rfl
  suffices hs : forwardLogits mode 0 qLen kvLen msi a S attnMask sortedIdx
      impSnap snapCache wrongCache h2oHist
      = .ok (finalizeLogits qLen attnMask (liftScores S)) by
    exact ⟨hs, hs.trans hd.symm⟩
  rcases h with h | h | h
  · subst h; rfl
  · by_cases hdense : mode = "dense"
    · subst hdense; rfl
    · simp only [forwardLogits]
      rw [if_neg hdense, if_pos h]
      rfl
  · fin_cases h <;> rfl

/-- Witness for C8, at `mode = "snapkv"` with concrete shapes. -/
theorem layer_zero_dense_equivalence_witness :
    forwardLogits "snapkv" 0 2 2 1 (1/2) (fun _ _ => 0) (fun _ _ => ⊥)
        (fun _ _ => 0) (fun _ _ => 0) none none none
      = .ok (finalizeLogits 2 (fun _ _ => ⊥) (liftScores (fun _ _ => 0)))
    ∧ forwardLogits "snapkv" 0 2 2 1 (1/2) (fun _ _ => 0) (fun _ _ => ⊥)
        (fun _ _ => 0) (fun _ _ => 0) none none none
      = forwardLogits "dense" 0 2 2 1 (1/2) (fun _ _ => 0) (fun _ _ => ⊥)
          (fun _ _ => 0) (fun _ _ => 0) none none none :=
  layer_zero_dense_equivalence "snapkv" 2 2 1 (1/2) (fun _ _ => 0)
    (fun _ _ => ⊥) (fun _ _ => 0) (fun _ _ => 0) none none none (by decide)
